import Mathlib

/-!
Verification of the `ctrl_bps` workflow-transformation engine.

The Python sources embedded here are
`src/python/lsst/ctrl/bps/transform.py` (attribute aggregation, command
materialization, final-job dispatch and attachment),
`src/python/lsst/ctrl/bps/bps_core.py` (workflow-graph assembly and
initialization-job chaining), and the behaviour of the configuration
search pinned by `src/tests/test_bpsconfig.py`.

Python dictionaries are embedded as association lists, Python values as
the inductive `PyVal` (with `PyVal.none` for Python `None`), and
exception-raising code as `Except`-valued functions.
-/

namespace Bps

/-- Values stored in job-attribute dictionaries: Python `None`, numbers
(ints and floats are both modelled as rationals, matching Python's
cross-type numeric equality), strings and booleans. -/
inductive PyVal where
  | none
  | num (q : ℚ)
  | str (s : String)
  | bool (b : Bool)
deriving DecidableEq, Repr

/-- Python truthiness of a `PyVal` (`if not current_value:` checks). -/
def truthy : PyVal → Bool
  | .none => false
  | .num q => q != 0
  | .str s => s != ""
  | .bool b => b

/-- Python `<` on two values; `Option.none` marks a `TypeError`
(comparison between incompatible types). -/
def pyLt : PyVal → PyVal → Option Bool
  | .num a, .num b => some (decide (a < b))
  | .str a, .str b => some (decide (a < b))
  | _, _ => Option.none

/-- Python `+` on two values; `Option.none` marks a `TypeError`. -/
def pyAdd : PyVal → PyVal → Option PyVal
  | .num a, .num b => some (.num (a + b))
  | .str a, .str b => some (.str (a ++ b))
  | _, _ => Option.none

/-- A record of job (or quantum) attribute values: a Python dict keyed by
attribute name.  Used both for `quantum_job_values` dictionaries and for
the mutable `GenericWorkflowJob` itself. -/
def AttrMap : Type := List (String × PyVal)

instance : DecidableEq AttrMap := inferInstanceAs (DecidableEq (List (String × PyVal)))

/-- Dictionary lookup (`quantum_job_values[attr]` / `dict.get`):
`Option.none` when the key is missing. -/
def lookupVal (m : AttrMap) (k : String) : Option PyVal :=
  match m with
  | [] => Option.none
  | (k', v) :: rest => if k' = k then some v else lookupVal rest k

/-- Python `getattr(gwjob, attr)`: dataclass fields always exist, so a
missing entry reads as the default `None`. -/
def getAttr (j : AttrMap) (k : String) : PyVal :=
  (lookupVal j k).getD .none

/-- Python `setattr(gwjob, attr, v)`: overwrite the first binding of the
key, or append a new binding. -/
def setAttr (j : AttrMap) (k : String) (v : PyVal) : AttrMap :=
  match j with
  | [] => [(k, v)]
  | (k', w) :: rest => if k' = k then (k', v) :: rest else (k', w) :: setAttr rest k v

/-- Job attributes (transform.py `_ATTRS_ALL`).  The field list of the
`GenericWorkflowJob` dataclass is not among the sources; the set is taken
from the spec's data model (section 3): name, label, executable,
arguments, cmdvals, the seven resource attributes, profile, attrs, and
compute_site. -/
def ATTRS_ALL : List String :=
  ["name", "label", "executable", "arguments", "cmdvals",
   "request_cpus", "request_memory", "request_memory_max",
   "request_disk", "request_walltime",
   "memory_multiplier", "number_of_retries",
   "profile", "attrs", "compute_site"]

/-- transform.py `_ATTRS_MAX`: attributes set to their maximal value in
the cluster. -/
def ATTRS_MAX : List String :=
  ["memory_multiplier", "number_of_retries", "request_cpus",
   "request_memory", "request_memory_max"]

/-- transform.py `_ATTRS_SUM`: attributes summed over the cluster. -/
def ATTRS_SUM : List String :=
  ["request_disk", "request_walltime"]

/-- transform.py `_ATTRS_MISC`: attributes never auto-merged. -/
def ATTRS_MISC : List String :=
  ["label", "cmdvals", "profile", "attrs"]

/-- transform.py `_ATTRS_UNIVERSAL = _ATTRS_ALL - (MAX | MISC | SUM)`. -/
def ATTRS_UNIVERSAL : List String :=
  ATTRS_ALL.filter (fun a =>
    ¬ (a ∈ ATTRS_MAX ∨ a ∈ ATTRS_MISC ∨ a ∈ ATTRS_SUM))

/-- Errors raised by the attribute-aggregation handlers.
`inconsistent` is the `RuntimeError` of `_handle_job_values_universal`
(its message names the attribute and the cluster job); `keyError` is an
unguarded Python dictionary lookup; `typeError` is a Python comparison or
addition between incompatible types. -/
inductive FoldError where
  | inconsistent (attr : String) (jobName : PyVal) (current quantum : PyVal)
  | keyError (key : String)
  | typeError
deriving DecidableEq, Repr

/-- One iteration of the loop body of `_handle_job_values_universal`
(transform.py lines 502-528) for a single attribute. -/
def universalStep (quantum_job_values : AttrMap) (attr : String) (gwjob : AttrMap) :
    Except FoldError AttrMap :=
  match lookupVal quantum_job_values attr with
  | Option.none => .ok gwjob
  | some quantum_value =>
    let current_value := getAttr gwjob attr
    if ¬ truthy current_value then .ok (setAttr gwjob attr quantum_value)
    else if current_value = quantum_value then .ok gwjob
    else .error (.inconsistent attr (getAttr gwjob "name") current_value quantum_value)

/-- Fold `universalStep` over a list of attributes, stopping at the first
error (a raised exception aborts the Python loop). -/
def universalFold (quantum_job_values : AttrMap) (attrs : List String) (gwjob : AttrMap) :
    Except FoldError AttrMap :=
  match attrs with
  | [] => .ok gwjob
  | a :: rest => do
    let j ← universalStep quantum_job_values a gwjob
    universalFold quantum_job_values rest j

/-- transform.py `_handle_job_values_universal(quantum_job_values, gwjob,
attributes)`: iterate over `_ATTRS_UNIVERSAL & set(attributes)` (Python
iterates this set in an unspecified order; the processing of distinct
universal attributes is independent, so the fixed order used here is
faithful). -/
def handleJobValuesUniversal (quantum_job_values : AttrMap) (gwjob : AttrMap)
    (attributes : List String) : Except FoldError AttrMap :=
  universalFold quantum_job_values
    (ATTRS_UNIVERSAL.filter (fun a => a ∈ attributes)) gwjob

/-- One iteration of the loop body of `_handle_job_values_max`
(transform.py lines 545-574) for a single attribute, including the
memory-scaling side effect on a `request_memory` update.  The two lookups
`quantum_job_values["memory_multiplier"]` and
`quantum_job_values["number_of_retries"]` inside the side effect sit in
the `else:` clause of the `try`, so a missing key there raises. -/
def maxStep (quantum_job_values : AttrMap) (attr : String) (gwjob : AttrMap) :
    Except FoldError AttrMap :=
  match lookupVal quantum_job_values attr with
  | Option.none => .ok gwjob
  | some quantum_value =>
    let current_value := getAttr gwjob attr
    let needsUpdate : Except FoldError Bool :=
      if current_value = .none then
        .ok (quantum_value ≠ .none)
      else if quantum_value = .none then
        .ok false
      else
        match pyLt current_value quantum_value with
        | some b => .ok b
        | Option.none => .error .typeError
    do
      let upd ← needsUpdate
      if upd then
        let j1 := setAttr gwjob attr quantum_value
        if attr = "request_memory" then
          match lookupVal quantum_job_values "memory_multiplier" with
          | Option.none => .error (.keyError "memory_multiplier")
          | some mm =>
            let j2 := setAttr j1 "memory_multiplier" mm
            if mm ≠ .none then
              match lookupVal quantum_job_values "number_of_retries" with
              | Option.none => .error (.keyError "number_of_retries")
              | some nr => .ok (setAttr j2 "number_of_retries" nr)
            else .ok j2
        else .ok j1
      else .ok gwjob

/-- Fold `maxStep` over a list of attributes. -/
def maxFold (quantum_job_values : AttrMap) (attrs : List String) (gwjob : AttrMap) :
    Except FoldError AttrMap :=
  match attrs with
  | [] => .ok gwjob
  | a :: rest => do
    let j ← maxStep quantum_job_values a gwjob
    maxFold quantum_job_values rest j

/-- transform.py `_handle_job_values_max(quantum_job_values, gwjob,
attributes)`: iterate over `_ATTRS_MAX & set(attributes)`.  (Python's set
iteration order is unspecified; the final job state and any raised error
are independent of that order, so the fixed source-listing order used
here is faithful.) -/
def handleJobValuesMax (quantum_job_values : AttrMap) (gwjob : AttrMap)
    (attributes : List String) : Except FoldError AttrMap :=
  maxFold quantum_job_values (ATTRS_MAX.filter (fun a => a ∈ attributes)) gwjob

/-- One iteration of the loop body of `_handle_job_values_sum`
(transform.py lines 590-595): the lookup `quantum_job_values[attr]` is
unguarded, so a missing key raises. -/
def sumStep (quantum_job_values : AttrMap) (attr : String) (gwjob : AttrMap) :
    Except FoldError AttrMap :=
  let current_value := getAttr gwjob attr
  match lookupVal quantum_job_values attr with
  | Option.none => .error (.keyError attr)
  | some quantum_value =>
    if ¬ truthy current_value then .ok (setAttr gwjob attr quantum_value)
    else
      match pyAdd current_value quantum_value with
      | some v => .ok (setAttr gwjob attr v)
      | Option.none => .error .typeError

/-- Fold `sumStep` over a list of attributes. -/
def sumFold (quantum_job_values : AttrMap) (attrs : List String) (gwjob : AttrMap) :
    Except FoldError AttrMap :=
  match attrs with
  | [] => .ok gwjob
  | a :: rest => do
    let j ← sumStep quantum_job_values a gwjob
    sumFold quantum_job_values rest j

/-- transform.py `_handle_job_values_sum(quantum_job_values, gwjob,
attributes)`: iterate over `_ATTRS_SUM & set(attributes)`. -/
def handleJobValuesSum (quantum_job_values : AttrMap) (gwjob : AttrMap)
    (attributes : List String) : Except FoldError AttrMap :=
  sumFold quantum_job_values (ATTRS_SUM.filter (fun a => a ∈ attributes)) gwjob

/-- transform.py `_handle_job_values(quantum_job_values, gwjob,
attributes)`: universal, then max, then sum. -/
def handleJobValues (quantum_job_values : AttrMap) (gwjob : AttrMap)
    (attributes : List String) : Except FoldError AttrMap := do
  let j1 ← handleJobValuesUniversal quantum_job_values gwjob attributes
  let j2 ← handleJobValuesMax quantum_job_values j1 attributes
  handleJobValuesSum quantum_job_values j2 attributes

/-- Modelled from the spec: `DEFAULT_MEM_RETRIES`, imported by
transform.py from the package root which is not among the sources; the
spec only requires it to be a non-null default retry count. -/
def DEFAULT_MEM_RETRIES : PyVal := .num 5

/-- Ceiling of a rational, written so the kernel can evaluate it. -/
def ratCeil (q : ℚ) : Int := -((-q).num / ((-q).den : Int))

/-- Python `math.ceil(float(v)) > 1` on a numeric value (the only value
kind the claims exercise; transform.py applies it to the memory
multiplier). -/
def ceilGtOne (q : ℚ) : Bool := decide (1 < ratCeil q)

/-- transform.py `_get_job_values`, lines 449-454: the automatic
memory-scaling adjustment applied to a freshly gathered job-value record.
If the multiplier is set and its ceiling exceeds 1, a default retry count
is supplied when none was; otherwise the multiplier is cleared.  Only
numeric (or `None`) multiplier values are modelled; the claims exercise
no others. -/
def adjustMemoryScaling (job_values : AttrMap) : AttrMap :=
  match lookupVal job_values "memory_multiplier" with
  | some (.num q) =>
    if ceilGtOne q then
      match lookupVal job_values "number_of_retries" with
      | some PyVal.none => setAttr job_values "number_of_retries" DEFAULT_MEM_RETRIES
      | _ => job_values
    else setAttr job_values "memory_multiplier" PyVal.none
  | _ => job_values

instance (ε α : Type) [DecidableEq ε] [DecidableEq α] : DecidableEq (Except ε α) :=
  fun a b =>
    match a, b with
    | .ok x, .ok y =>
      if h : x = y then isTrue (by rw [h]) else isFalse (by intro hc; cases hc; exact h rfl)
    | .error x, .error y =>
      if h : x = y then isTrue (by rw [h]) else isFalse (by intro hc; cases hc; exact h rfl)
    | .ok _, .error _ => isFalse (by intro hc; cases hc)
    | .error _, .ok _ => isFalse (by intro hc; cases hc)

/-- A freshly constructed cluster job `GenericWorkflowJob(name)`: only the
name is set, every other dataclass field reads as its `None`-like default. -/
def freshJob (name : String) : AttrMap := [("name", .str name)]

/-- Fold two unit records into a job with the max-class handler, in the
given order (two successive calls to `_handle_job_values_max`). -/
def foldTwoMax (r1 r2 : AttrMap) (gwjob : AttrMap) : Except FoldError AttrMap := do
  let j1 ← handleJobValuesMax r1 gwjob ATTRS_ALL
  handleJobValuesMax r2 j1 ATTRS_ALL

/-- Unit record with the larger memory request and no memory multiplier
(a fixed point of `adjustMemoryScaling`). -/
def unitBigMemNoScaling : AttrMap :=
  [("request_memory", .num 4096), ("request_cpus", .none),
   ("request_memory_max", .none), ("memory_multiplier", .none),
   ("number_of_retries", .none)]

/-- Unit record with the smaller memory request and an active memory
multiplier (a fixed point of `adjustMemoryScaling`). -/
def unitSmallMemScaling : AttrMap :=
  [("request_memory", .num 2048), ("request_cpus", .none),
   ("request_memory_max", .none), ("memory_multiplier", .num 2),
   ("number_of_retries", .num 5)]

/-- The spec's unit A: `request_memory=2048`, no multiplier. -/
def specUnitA : AttrMap :=
  [("request_memory", .num 2048), ("request_cpus", .none),
   ("request_memory_max", .none), ("memory_multiplier", .none),
   ("number_of_retries", .none)]

/-- The spec's unit B before `_get_job_values` normalization:
`request_memory=4096`, `memory_multiplier=2.0`, no configured retries. -/
def specUnitBRaw : AttrMap :=
  [("request_memory", .num 4096), ("request_cpus", .none),
   ("request_memory_max", .none), ("memory_multiplier", .num 2),
   ("number_of_retries", .none)]

/-- The spec's unit B as produced by `_get_job_values` (the memory-scaling
adjustment fills in the default retry count). -/
def specUnitB : AttrMap := adjustMemoryScaling specUnitBRaw

/-- Extensional equality of two fold outcomes: identical errors, or jobs
whose dataclass fields all hold the same values.  (The association-list
embedding of a job records insertion order, which a Python object does
not have, so job states are compared field-wise.) -/
def exceptSameJob (x y : Except FoldError AttrMap) : Bool :=
  match x, y with
  | .ok a, .ok b => ATTRS_ALL.all (fun k => getAttr a k = getAttr b k)
  | .error e1, .error e2 => e1 = e2
  | _, _ => false

/-- Values held by the configuration store (the claims exercise integers
and strings). -/
inductive CVal where
  | num (n : Int)
  | str (s : String)
deriving DecidableEq, Repr

/-- Generic association-list (Python dict) lookup. -/
def alistFind {α : Type} (m : List (String × α)) (k : String) : Option α :=
  match m with
  | [] => Option.none
  | (k', v) :: rest => if k' = k then some v else alistFind rest k

/-- One configuration section: section-level keys plus named nested
subsections. -/
structure ConfigSection where
  values : List (String × CVal)
  subsections : List (String × List (String × CVal))
deriving DecidableEq, Repr

/-- The configuration store: sections listed in the caller-supplied
search order. -/
structure ConfigStore where
  sections : List (String × ConfigSection)
deriving DecidableEq, Repr

/-- Modelled from the spec: the per-section probe of `BpsConfig.search`
(bps_config.py is not among the sources; behaviour follows spec section
4.1 step 2 and is pinned by `testSubsectionSearch` and
`testSectionSearchOrder`): when the request's current values carry a
`curr_<section>` entry naming a subsection, probe that subsection for the
key first, then fall back to the section-level key. -/
def probeSection (curvals : List (String × CVal)) (sectName : String)
    (sect : ConfigSection) (key : String) : Option CVal :=
  match alistFind curvals ("curr_" ++ sectName) with
  | some (.str sv) =>
    match alistFind sect.subsections sv with
    | some sub =>
      match alistFind sub key with
      | some v => some v
      | Option.none => alistFind sect.values key
    | Option.none => alistFind sect.values key
  | _ => alistFind sect.values key

/-- Probe the sections in search order, returning the first hit. -/
def probeSections (curvals : List (String × CVal)) (key : String) :
    List (String × ConfigSection) → Option CVal
  | [] => Option.none
  | (n, s) :: rest =>
    match probeSection curvals n s key with
    | some v => some v
    | Option.none => probeSections curvals key rest

/-- Result of a configuration search: Python's `(found, value)` pair for
the two successful shapes, or the `KeyError` a required-and-missing
setting raises. -/
inductive SearchResult where
  | found (v : CVal)
  | notFound
  | keyError (key : String)
deriving DecidableEq, Repr

/-- Modelled from the spec: the lookup part of `BpsConfig.search(key,
opt)` (bps_config.py is not among the sources; spec section 4.1 steps 1-3
pinned by the TestBpsConfigSearch tests): an explicit search object is
probed first, then the current-value context itself, then the sections in
search order; if nothing is found a supplied default is returned as
found, and otherwise a required search raises `KeyError` while an
unrequired one reports not-found. -/
def searchCore (store : ConfigStore) (key : String) (curvals : List (String × CVal))
    (deflt : Option CVal) (required : Bool) : SearchResult :=
  match alistFind curvals key with
  | some v => .found v
  | Option.none =>
    match probeSections curvals key store.sections with
    | some v => .found v
    | Option.none =>
      match deflt with
      | some d => .found d
      | Option.none => if required then .keyError key else .notFound

/-- Modelled from the spec: `BpsConfig.search` including the optional
`searchobj` that is probed before anything else (spec section 4.1 step 1,
pinned by `testSearchobjValues`). -/
def search (store : ConfigStore) (key : String) (curvals : List (String × CVal))
    (searchobj : Option (List (String × CVal))) (deflt : Option CVal)
    (required : Bool) : SearchResult :=
  match searchobj with
  | some obj =>
    match alistFind obj key with
    | some v => .found v
    | Option.none => searchCore store key curvals deflt required
  | Option.none => searchCore store key curvals deflt required

/-- Whether a key occurs in a section, either at section level or inside
any named subsection. -/
def keyInSection (sect : ConfigSection) (key : String) : Bool :=
  (alistFind sect.values key).isSome ||
    sect.subsections.any (fun sub => (alistFind sub.2 key).isSome)

/-- Whether a key is absent from every section of the store. -/
def keyAbsentEverywhere (store : ConfigStore) (key : String) : Bool :=
  store.sections.all (fun s => !(keyInSection s.2 key))

/-- The store of the spec's subsection-precedence example: sections
`{baz: {qux: 2}, baz.garply: {qux: 3}}`. -/
def specStore : ConfigStore :=
  ⟨[("baz", ⟨[("qux", .num 2)], [("garply", [("qux", .num 3)])]⟩)]⟩

/-- The opening curly brace character. -/
def braceOpen : Char := Char.ofNat 123

/-- The closing curly brace character. -/
def braceClose : Char := Char.ofNat 125

/-- Characters before the first occurrence of `stop`, and the remainder
after it; nothing when `stop` never occurs. -/
def takeUntilChar (stop : Char) : List Char → Option (List Char × List Char)
  | [] => Option.none
  | c :: rest =>
    if c = stop then some ([], rest)
    else
      match takeUntilChar stop rest with
      | some (pre, post) => some (c :: pre, post)
      | Option.none => Option.none

/-- Rewrite of every `${VAR}` token into a `<ENV:VAR>` deferred marker
(Python `re.sub` with pattern dollar-brace-nonbrace-brace); fuel-driven
scan, one unit of fuel per emitted segment. -/
def deferEnvAux : Nat → List Char → List Char
  | 0, cs => cs
  | _ + 1, [] => []
  | fuel + 1, '$' :: rest =>
    match rest with
    | b :: rest2 =>
      if b = braceOpen then
        match takeUntilChar braceClose rest2 with
        | some (var, post) =>
          if var = [] then '$' :: b :: deferEnvAux fuel rest2
          else '<' :: 'E' :: 'N' :: 'V' :: ':' :: (var ++ '>' :: deferEnvAux fuel post)
        | Option.none => '$' :: deferEnvAux fuel rest
      else '$' :: deferEnvAux fuel rest
    | [] => ['$']
  | fuel + 1, c :: rest => c :: deferEnvAux fuel rest

/-- String wrapper for `deferEnvAux`. -/
def deferEnvMarkers (s : String) : String :=
  String.mk (deferEnvAux (s.data.length + 1) s.data)

/-- Rewrite of every `<ENV:x>` marker back into `$x` (transform.py line
325 and the expand stage of the configuration search). -/
def unmarkEnvAux : Nat → List Char → List Char
  | 0, cs => cs
  | _ + 1, [] => []
  | fuel + 1, '<' :: 'E' :: 'N' :: 'V' :: ':' :: rest =>
    (match takeUntilChar '>' rest with
     | some (var, post) =>
       if var = [] then '<' :: unmarkEnvAux fuel ('E' :: 'N' :: 'V' :: ':' :: rest)
       else '$' :: (var ++ unmarkEnvAux fuel post)
     | Option.none => '<' :: unmarkEnvAux fuel ('E' :: 'N' :: 'V' :: ':' :: rest))
  | fuel + 1, c :: rest => c :: unmarkEnvAux fuel rest

/-- String wrapper for `unmarkEnvAux`. -/
def unmarkEnvStr (s : String) : String :=
  String.mk (unmarkEnvAux (s.data.length + 1) s.data)

/-- Characters allowed in a bare `$name` environment reference. -/
def isVarChar (c : Char) : Bool := c.isAlphanum || c = '_'

/-- Python `os.path.expandvars`: substitute `${name}` and `$name` tokens
from the environment snapshot, leaving unset variables untouched. -/
def expandVarsAux (env : List (String × String)) : Nat → List Char → List Char
  | 0, cs => cs
  | _ + 1, [] => []
  | fuel + 1, '$' :: rest =>
    (match rest with
     | b :: rest2 =>
       if b = braceOpen then
         match takeUntilChar braceClose rest2 with
         | some (var, post) =>
           (match alistFind env (String.mk var) with
            | some v => v.data ++ expandVarsAux env fuel post
            | Option.none =>
              '$' :: b :: (var ++ braceClose :: expandVarsAux env fuel post))
         | Option.none => '$' :: expandVarsAux env fuel rest
       else
         let name := (b :: rest2).takeWhile isVarChar
         if name = [] then '$' :: expandVarsAux env fuel rest
         else
           (match alistFind env (String.mk name) with
            | some v => v.data ++ expandVarsAux env fuel ((b :: rest2).dropWhile isVarChar)
            | Option.none =>
              '$' :: (name ++ expandVarsAux env fuel ((b :: rest2).dropWhile isVarChar)))
     | [] => ['$'])
  | fuel + 1, c :: rest => c :: expandVarsAux env fuel rest

/-- String wrapper for `expandVarsAux`. -/
def expandVarsStr (env : List (String × String)) (s : String) : String :=
  String.mk (expandVarsAux env (s.data.length + 1) s.data)

/-- Split a format token at the first colon: `name:fmt` or bare `name`. -/
def splitAtColon : List Char → List Char × Option (List Char)
  | [] => ([], Option.none)
  | ':' :: rest => ([], some rest)
  | c :: rest =>
    let p := splitAtColon rest
    (c :: p.1, p.2)

/-- Parse a run of decimal digits. -/
def natOfDigits : List Char → Option Nat
  | [] => Option.none
  | cs => if cs.all Char.isDigit then some (cs.foldl (fun n c => n * 10 + c.toNat - 48) 0)
          else Option.none

/-- Left-pad with zeros to the given width. -/
def padZeros (w : Nat) (s : String) : String :=
  if s.length < w then String.mk (List.replicate (w - s.length) '0') ++ s else s

/-- Render one substitution value under an optional format specifier.
Only the shapes the sources exercise are modelled: plain strings, plain
integers, and zero-padded integers (`03`); anything else yields nothing
and the token is left in place. -/
def renderPy (v : PyVal) (fmt : Option (List Char)) : Option String :=
  match v, fmt with
  | .str s, Option.none => some s
  | .num q, Option.none => if q.den = 1 then some (toString q.num) else Option.none
  | .num q, some f =>
    (match f with
     | '0' :: ds =>
       (match natOfDigits ds with
        | some w => if q.den = 1 then some (padZeros w (toString q.num)) else Option.none
        | Option.none => Option.none)
     | _ => Option.none)
  | _, _ => Option.none

/-- Substitution of `{name}` / `{name:fmt}` tokens from a value mapping
(the nested-variable stage of the configuration search, and the final
`.format(**cmdvals)` of `_fill_arguments`).  Tokens whose name is not in
the mapping, or whose rendering is not modelled, are left in place (the
claims exercise only present keys). -/
def formatVarsAux (vars : List (String × PyVal)) : Nat → List Char → List Char
  | 0, cs => cs
  | _ + 1, [] => []
  | fuel + 1, c :: rest =>
    if c = braceOpen then
      match takeUntilChar braceClose rest with
      | some (tok, post) =>
        let p := splitAtColon tok
        (match alistFind vars (String.mk p.1) with
         | some v =>
           (match renderPy v p.2 with
            | some s => s.data ++ formatVarsAux vars fuel post
            | Option.none => c :: (tok ++ braceClose :: formatVarsAux vars fuel post))
         | Option.none => c :: (tok ++ braceClose :: formatVarsAux vars fuel post))
      | Option.none => c :: formatVarsAux vars fuel rest
    else c :: formatVarsAux vars fuel rest

/-- String wrapper for `formatVarsAux`. -/
def formatVarsStr (vars : List (String × PyVal)) (s : String) : String :=
  String.mk (formatVarsAux vars (s.data.length + 1) s.data)

/-- Modelled from the spec: the three-stage template pipeline of
`BpsConfig.search` on a found string value (spec section 4.1 step 4;
bps_config.py is not among the sources, so the stage order and net
effects are taken from the spec and pinned by `testVariables`):
defer-environment first rewrites `${VAR}` into `<ENV:VAR>` markers when
`replaceEnvVars` is set; expand-environment-now then turns any marker
back into `$VAR` and expands from the environment snapshot when
`expandEnvVars` is set; nested-variable resolution runs last when
`replaceVars` is set, so it sees already-environment-substituted text. -/
def applyTemplatePipeline (env : List (String × String)) (vars : List (String × PyVal))
    (expandEnvVars replaceEnvVars replaceVars : Bool) (s : String) : String :=
  let s1 := if replaceEnvVars then deferEnvMarkers s else s
  let s2 := if expandEnvVars then expandVarsStr env (unmarkEnvStr s1) else s1
  if replaceVars then formatVarsStr vars s2 else s2

/-- Environment of the `testVariables` test: `GARPLY=garply`. -/
def testEnv : List (String × String) := [("GARPLY", "garply")]

/-- Variable context of the `testVariables` test: `qux = 2` (the value
the store search resolves for `qux`). -/
def testVars : List (String × PyVal) := [("qux", .num 2)]

/-- The stored raw template of the `grault` key. -/
def graultRaw : String := "$\x7bGARPLY\x7d/waldo/\x7bqux:03\x7d"

/-- The value `search("grault", opt)` produces under the three toggles. -/
def graultSearch (expandEnvVars replaceEnvVars replaceVars : Bool) : String :=
  applyTemplatePipeline testEnv testVars expandEnvVars replaceEnvVars replaceVars graultRaw

/-- transform.py / generic workflow `GenericWorkflowFile`: logical name,
source location, and the three transfer/visibility booleans. -/
structure GenericWorkflowFile where
  name : String
  src_uri : String
  wms_transfer : Bool
  job_access_remote : Bool
  job_shared : Bool
deriving DecidableEq, Repr

/-- Python `os.path.basename`: characters after the last slash. -/
def basenameAux : List Char → List Char → List Char
  | [], acc => acc.reverse
  | '/' :: rest, _ => basenameAux rest []
  | c :: rest, acc => basenameAux rest (c :: acc)

/-- String wrapper for `basenameAux`. -/
def basenameStr (s : String) : String := String.mk (basenameAux s.data [])

/-- Count of leading occurrences of a character. -/
def countLeading (c : Char) : List Char → Nat
  | [] => 0
  | x :: rest => if x = c then countLeading c rest + 1 else 0

/-- Suffix starting at the last dot, when a dot occurs. -/
def extAfterLastDot : List Char → Option (List Char)
  | [] => Option.none
  | '.' :: rest =>
    (match extAfterLastDot rest with
     | some e => some e
     | Option.none => some ('.' :: rest))
  | _ :: rest => extAfterLastDot rest

/-- Python `os.path.splitext(p)[1]`: the extension of the basename, where
leading dots of the basename never start an extension. -/
def splitextExtension (p : String) : String :=
  let b := (basenameStr p).data
  let k := countLeading '.' b
  match extAfterLastDot (b.drop k) with
  | some e => String.mk e
  | Option.none => ""

/-- transform.py `_fill_arguments` lines 303-320: the URI substituted for
a file marker: the full source URI when the WMS does not transfer the
file; on a shared filesystem, the source URI for job-shareable files, the
hard-coded `butler.yaml` for a `butlerConfig` file whose source lacks a
`.yaml` extension, and otherwise the base name; with push transfer,
always the base name. -/
def fileUri (use_shared : Bool) (gwfile : GenericWorkflowFile) : String :=
  if ¬ gwfile.wms_transfer then gwfile.src_uri
  else if use_shared then
    if gwfile.job_shared then gwfile.src_uri
    else if gwfile.name = "butlerConfig" ∧ splitextExtension gwfile.src_uri ≠ ".yaml" then
      "butler.yaml"
    else basenameStr gwfile.src_uri
  else basenameStr gwfile.src_uri

/-- Keys of every `<FILE:key>` marker, left to right (Python
`re.findall` with pattern FILE-colon-nongreater-greater). -/
def findFileKeysAux : Nat → List Char → List String
  | 0, _ => []
  | _ + 1, [] => []
  | fuel + 1, '<' :: 'F' :: 'I' :: 'L' :: 'E' :: ':' :: rest =>
    (match takeUntilChar '>' rest with
     | some (key, post) =>
       if key = [] then findFileKeysAux fuel rest
       else String.mk key :: findFileKeysAux fuel post
     | Option.none => findFileKeysAux fuel rest)
  | fuel + 1, _ :: rest => findFileKeysAux fuel rest

/-- String wrapper for `findFileKeysAux`. -/
def findFileKeys (s : String) : List String := findFileKeysAux (s.data.length + 1) s.data

/-- Whether `pat` is a prefix of `cs`. -/
def isPrefixOfChars : List Char → List Char → Bool
  | [], _ => true
  | _ :: _, [] => false
  | p :: ps, c :: cs => p = c && isPrefixOfChars ps cs

/-- Python `str.replace`: replace every non-overlapping occurrence of a
(nonempty) pattern, left to right. -/
def replaceAllAux (pat repl : List Char) : Nat → List Char → List Char
  | 0, cs => cs
  | _ + 1, [] => []
  | fuel + 1, c :: rest =>
    if isPrefixOfChars pat (c :: rest) then
      repl ++ replaceAllAux pat repl fuel ((c :: rest).drop pat.length)
    else
      c :: replaceAllAux pat repl fuel rest

/-- String wrapper for `replaceAllAux`. -/
def replaceAllStr (s pat repl : String) : String :=
  String.mk (replaceAllAux pat.data repl.data (s.data.length + 1) s.data)

/-- transform.py `_fill_arguments` lines 301-322: find each file marker,
resolve the file (`get_file` raises on an unknown key), choose its URI by
policy and replace every occurrence of the marker. -/
def fillFileMarkers (use_shared : Bool) (files : List GenericWorkflowFile)
    (arguments : String) : Except String String :=
  (findFileKeys arguments).foldlM
    (fun args key =>
      match files.find? (fun f => f.name = key) with
      | some gwfile =>
        Except.ok (replaceAllStr args ("<FILE:" ++ key ++ ">") (fileUri use_shared gwfile))
      | Option.none => Except.error key)
    arguments

/-- transform.py `_fill_arguments` in full: file markers, then `<ENV:x>`
markers rewritten to `$x` and expanded from the submit-side environment,
then remaining `{name}` substitutions from `cmdvals`. -/
def fillArguments (use_shared : Bool) (files : List GenericWorkflowFile)
    (env : List (String × String)) (cmdvals : List (String × PyVal))
    (arguments : String) : Except String String :=
  match fillFileMarkers use_shared files arguments with
  | .error k => .error k
  | .ok a1 => .ok (formatVarsStr cmdvals (expandVarsStr env (unmarkEnvStr a1)))

/-- The counterexample file: a `butlerConfig` file on a shared filesystem
that is WMS-transferred, not job-shareable, and whose source URI has no
`.yaml` extension. -/
def butlerCfgFile : GenericWorkflowFile :=
  ⟨"butlerConfig", "/repo/butler", true, false, false⟩

/-- Python `str.upper` restricted to ASCII (every enumeration value the
sources compare is ASCII). -/
def pyUpperChar (c : Char) : Char :=
  if 'a' ≤ c ∧ c ≤ 'z' then Char.ofNat (c.toNat - 32) else c

/-- String-level wrapper for `pyUpperChar`. -/
def pyUpper (s : String) : String := String.mk (s.data.map pyUpperChar)

/-- The job-level DAG of a `GenericWorkflow`, together with the
designated unconditional final job that `add_final` stores.  Files live
in a separate mapping in the source and contribute no job-to-job edges,
so only job nodes appear here. -/
structure GWGraph where
  nodes : List String
  edges : List (String × String)
  finalJob : Option String
deriving DecidableEq, Repr

/-- Modelled from the spec: `GenericWorkflow.add_job` (the class is not
among the sources): add a job node. -/
def addJob (g : GWGraph) (j : String) : GWGraph :=
  { g with nodes := g.nodes ++ [j] }

/-- networkx `out_degree`: number of edges leaving a node. -/
def outDegree (g : GWGraph) (n : String) : Nat :=
  (g.edges.filter (fun e => e.1 = n)).length

/-- Modelled from the spec: `GenericWorkflow.add_final` (the class is not
among the sources): attach the job unconditionally as the designated
final job, with no dependency edges. -/
def addFinal (g : GWGraph) (j : String) : GWGraph :=
  { g with nodes := g.nodes ++ [j], finalJob := some j }

/-- transform.py `add_final_job_as_sink(generic_workflow, final_job)`:
collect the current sink nodes, add the final job as an ordinary node,
and add an edge from every previous sink to it. -/
def addFinalJobAsSink (g : GWGraph) (finalName : String) : GWGraph :=
  let gw_sinks := g.nodes.filter (fun n => outDegree g n = 0)
  { nodes := g.nodes ++ [finalName]
    edges := g.edges ++ gw_sinks.map (fun s => (s, finalName))
    finalJob := g.finalJob }

/-- Errors raised while attaching the final job: the `RuntimeError` of
`add_final_job` when no specification is found, and the `ValueError` of
the two policies on an invalid enumeration value. -/
inductive FinalJobError where
  | notFound
  | invalidWhenRun (v : String)
  | invalidWhenMerge (v : String)
deriving DecidableEq, Repr

/-- transform.py `_add_final_job(config, generic_workflow, prefix)`: the
explicit final-job policy.  The job it creates is named `finalJob`; the
command-construction details are orthogonal to attachment and omitted. -/
def addFinalJobWhenRun (when_run : String) (g : GWGraph) : Except FinalJobError GWGraph :=
  if pyUpper when_run ≠ "NEVER" then
    if pyUpper when_run = "ALWAYS" then .ok (addFinal g "finalJob")
    else if pyUpper when_run = "SUCCESS" then .ok (addFinalJobAsSink g "finalJob")
    else .error (.invalidWhenRun when_run)
  else .ok g

/-- transform.py `_add_merge_job(config, generic_workflow, prefix)`: the
execution-butler merge policy.  The job it creates is named
`executionButler`. -/
def addMergeJob (when_create when_merge : String) (g : GWGraph) :
    Except FinalJobError GWGraph :=
  if pyUpper when_create ≠ "NEVER" ∧ pyUpper when_merge ≠ "NEVER" then
    if pyUpper when_merge = "ALWAYS" then .ok (addFinal g "executionButler")
    else if pyUpper when_merge = "SUCCESS" then .ok (addFinalJobAsSink g "executionButler")
    else .error (.invalidWhenMerge when_merge)
  else .ok g

/-- The three configuration values `add_final_job` and its two policies
consult: `.finalJob.whenRun`, `.executionButler.whenCreate`, and
`.executionButler.whenMerge`; absent keys are `Option.none`. -/
structure FinalJobConfig where
  finalJobWhenRun : Option String
  ebWhenCreate : Option String
  ebWhenMerge : Option String
deriving DecidableEq, Repr

/-- Python `name in config and config[name] != "NEVER"` for an optional
key: the dispatcher's case-sensitive selection test. -/
def presentNotNever : Option String → Bool
  | some v => v ≠ "NEVER"
  | Option.none => false

/-- transform.py `add_final_job(config, generic_workflow, prefix)`: the
priority-ordered dispatch over the two policies; an unrequired
`config.search` of a missing key yields the empty string inside the
selected policy. -/
def addFinalJobDispatch (c : FinalJobConfig) (g : GWGraph) : Except FinalJobError GWGraph :=
  if presentNotNever c.finalJobWhenRun then
    addFinalJobWhenRun (c.finalJobWhenRun.getD "") g
  else if presentNotNever c.ebWhenCreate then
    addMergeJob (c.ebWhenCreate.getD "") (c.ebWhenMerge.getD "") g
  else .error .notFound

/-- Every edge of the graph connects existing nodes. -/
def edgesWellFormed (g : GWGraph) : Bool :=
  g.edges.all (fun e => e.1 ∈ g.nodes && e.2 ∈ g.nodes)

/-- Counterexample configuration for the dispatch: no explicit final job,
execution butler created at TRANSFORM but never merged. -/
def cfgMergeNever : FinalJobConfig := ⟨Option.none, some "TRANSFORM", some "NEVER"⟩

/-- A one-job workflow graph. -/
def oneJobGraph : GWGraph := ⟨["job1"], [], Option.none⟩

/-- Nodes of the bps_core workflow graph that the initialization logic
touches: the task node of a quantum (named by its node id), the
per-quantum qgraph file node, the per-label init task node
(`init_<label>`), and the counter-numbered init output file node. -/
inductive WNode where
  | quantum (id : Nat)
  | qgraphFile (id : Nat)
  | initTask (lbl : String)
  | initFile (n : Nat)
deriving DecidableEq, Repr

/-- Per-label `init_nodes` bookkeeping: the init task node, its output
file node, and the node id of the single representative quantum whose
logical file name was handed to `_update_task("pipetask_init", ...)`. -/
structure InitInfo where
  tnode : WNode
  fnode : WNode
  reprId : Nat
deriving DecidableEq, Repr

/-- State threaded through the `_create_workflow_graph` node loop
(bps_core.py lines 449-536): the `init_nodes` dictionary in insertion
order, the graph edges added so far, the node counter `ncnt`, and the
most recently created init file node — the Python variable `fnode_name`,
which the already-seen branch at line 536 reads in its stale state. -/
structure WGState where
  initNodes : List (String × InitInfo)
  edges : List (WNode × WNode)
  ncnt : Nat
  lastFnode : Option WNode
deriving DecidableEq, Repr

/-- One iteration of the task-node loop of `_create_workflow_graph` with
`runInit` enabled (bps_core.py lines 457-536) for the quantum with node
id `nid` and task label `lbl`: add the per-quantum qgraph file node and
its edge; then, for an unseen label, create the `init_<label>` task node
from this quantum (the single representative), its numbered output file
node, and the task-to-file and qgraph-to-task edges; in both branches add
the edge from the current value of the `fnode_name` variable to the
quantum's task node. -/
def stepInitQuantum (st : WGState) (nid : Nat) (lbl : String) : WGState :=
  let qnode := WNode.qgraphFile nid
  let st1 : WGState :=
    { st with edges := st.edges ++ [(qnode, WNode.quantum nid)], ncnt := st.ncnt + 1 }
  match alistFind st1.initNodes lbl with
  | some _ =>
    { st1 with
        edges := st1.edges ++
          (match st1.lastFnode with
           | some f => [(f, WNode.quantum nid)]
           | Option.none => []) }
  | Option.none =>
    let tnode := WNode.initTask lbl
    let n3 := st1.ncnt + 2
    let fnode := WNode.initFile n3
    { initNodes := st1.initNodes ++ [(lbl, ⟨tnode, fnode, nid⟩)]
      edges := st1.edges ++ [(tnode, fnode), (qnode, tnode), (fnode, WNode.quantum nid)]
      ncnt := n3
      lastFnode := some fnode }

/-- Fold `stepInitQuantum` over the quanta in graph-iteration order. -/
def buildWGAux : List (Nat × String) → WGState → WGState
  | [], st => st
  | (nid, lbl) :: rest, st => buildWGAux rest (stepInitQuantum st nid lbl)

/-- The initialization portion of `_create_workflow_graph` run over a
quantum list, starting from the science graph's node count. -/
def buildWorkflowInit (quanta : List (Nat × String)) (ncnt0 : Nat) : WGState :=
  buildWGAux quanta ⟨[], [], ncnt0, Option.none⟩

/-- Labels in order of first appearance that are not already in `seen`
(the insertion order of Python's `pipeline_task_labels` dict). -/
def newLabels (seen : List String) : List (Nat × String) → List String
  | [] => []
  | (_, l) :: rest =>
    if l ∈ seen then newLabels seen rest else l :: newLabels (seen ++ [l]) rest

/-- The task pipeline: distinct task labels in first-appearance order
(`_create_science_graph` lines 299-362 with no explicit `pipeline`
configuration). -/
def pipelineLabels (quanta : List (Nat × String)) : List String := newLabels [] quanta

/-- Node id of the first quantum bearing a label. -/
def firstOcc (quanta : List (Nat × String)) (lbl : String) : Option Nat :=
  match quanta with
  | [] => Option.none
  | (nid, l) :: rest => if l = lbl then some nid else firstOcc rest lbl

/-- bps_core.py `_link_init_nodes` (lines 408-427): walk consecutive
pipeline labels and add an edge from the previous label's init output
file node to the current label's init task node; a label missing from
`init_nodes` raises (`Option.none`). -/
def linkInitAux (ins : List (String × InitInfo)) : String → List String →
    Option (List (WNode × WNode))
  | _, [] => some []
  | prev, curr :: rest =>
    match alistFind ins prev, alistFind ins curr with
    | some ip, some ic =>
      (match linkInitAux ins curr rest with
       | some es => some ((ip.fnode, ic.tnode) :: es)
       | Option.none => Option.none)
    | _, _ => Option.none

/-- Entry point of `_link_init_nodes` over the whole pipeline list. -/
def linkInitNodes (ins : List (String × InitInfo)) (pipeline : List String) :
    Option (List (WNode × WNode)) :=
  match pipeline with
  | [] => some []
  | p :: rest => linkInitAux ins p rest

/-- The stored init output file node of a label (arbitrary node when the
label is unknown; every use is guarded by a proof of presence). -/
def initFnodeOf (ins : List (String × InitInfo)) (lbl : String) : WNode :=
  match alistFind ins lbl with
  | some i => i.fnode
  | Option.none => WNode.initFile 0

/-- The chain the claim requires: for consecutive pipeline labels, an
edge from the previous job's output file node to the next label's
initialization task node. -/
def chainEdges (ins : List (String × InitInfo)) (pipeline : List String) :
    List (WNode × WNode) :=
  (pipeline.zip pipeline.tail).map (fun pc => (initFnodeOf ins pc.1, WNode.initTask pc.2))

end Bps

/-! ## Theorems -/

namespace Bps

/-- Unfolding lemma for `universalFold` through the `Except` bind. -/
theorem universalFold_cons (q : AttrMap) (a : String) (rest : List String) (j : AttrMap) :
    universalFold q (a :: rest) j =
      match universalStep q a j with
      | .ok j' => universalFold q rest j'
      | .error e => .error e := by
  cases h : universalStep q a j <;> simp only [universalFold, h] <;> rfl

/-- A `universalFold` step for an attribute missing from the unit record
leaves the job unchanged. -/
theorem universalFold_skip (q : AttrMap) (a : String) (rest : List String) (j : AttrMap)
    (h : lookupVal q a = Option.none) :
    universalFold q (a :: rest) j = universalFold q rest j := by
  rw [universalFold_cons]
  simp [universalStep, h]

/-- A `universalFold` step for an attribute present in the unit record,
written out as the three-way branch of the source. -/
theorem universalStep_hit (q : AttrMap) (a : String) (j : AttrMap) (qv : PyVal)
    (h : lookupVal q a = some qv) :
    universalStep q a j =
      if ¬ truthy (getAttr j a) then .ok (setAttr j a qv)
      else if getAttr j a = qv then .ok j
      else .error (.inconsistent a (getAttr j "name") (getAttr j a) qv) := by
  simp [universalStep, h]

/-- With `attributes = _ATTRS_ALL`, the universal handler folds exactly
the four universal attributes, in source-listing order. -/
theorem handleJobValuesUniversal_allAttrs (q j : AttrMap) :
    handleJobValuesUniversal q j ATTRS_ALL =
      universalFold q ["name", "executable", "arguments", "compute_site"] j := by
  have hfil : ATTRS_UNIVERSAL.filter (fun a => a ∈ ATTRS_ALL) =
      ["name", "executable", "arguments", "compute_site"] := by decide
  rw [handleJobValuesUniversal, hfil]

/-- C1 (counterexample): the claim says that once a first unit has set a
universal attribute, folding a later unit with a different value raises
the cluster-inconsistency error.  The handler instead tests Python
truthiness: a first unit that supplies the empty string sets the stored
value to `""`, and a later unit with the different value `"siteX"`
silently overwrites it, raising nothing. -/
theorem C1_counterexample :
    handleJobValuesUniversal [("compute_site", PyVal.str "")]
        (freshJob "clusterA") ATTRS_ALL
      = .ok [("name", PyVal.str "clusterA"), ("compute_site", PyVal.str "")] ∧
    handleJobValuesUniversal [("compute_site", PyVal.str "siteX")]
        [("name", PyVal.str "clusterA"), ("compute_site", PyVal.str "")] ATTRS_ALL
      = .ok [("name", PyVal.str "clusterA"), ("compute_site", PyVal.str "siteX")] := by
  constructor <;> rfl

theorem lookupVal_singleton (k a : String) (v : PyVal) :
    lookupVal [(k, v)] a = if k = a then some v else Option.none := rfl

/-- Folding a record that supplies only `attr` over a list of attributes
not containing `attr` leaves the job unchanged. -/
theorem universalFold_singleton_notmem (attr : String) (qv : PyVal) (attrs : List String)
    (j : AttrMap) (h : attr ∉ attrs) :
    universalFold [(attr, qv)] attrs j = .ok j := by
  induction attrs generalizing j with
  | nil => rfl
  | cons a rest ih =>
    have hne : attr ≠ a := fun hc => h (hc ▸ List.mem_cons_self a rest)
    rw [universalFold_skip _ _ _ _ ?_]
    · exact ih _ (fun hm => h (List.mem_cons_of_mem a hm))
    · rw [lookupVal_singleton]
      exact if_neg hne

/-- Folding a record that supplies only `attr` over a duplicate-free list
of attributes containing `attr` behaves as the single three-way branch of
the source. -/
theorem universalFold_singleton_mem (attr : String) (qv : PyVal) (attrs : List String)
    (j : AttrMap) (h : attr ∈ attrs) (hnd : attrs.Nodup) :
    universalFold [(attr, qv)] attrs j =
      if ¬ truthy (getAttr j attr) then .ok (setAttr j attr qv)
      else if getAttr j attr = qv then .ok j
      else .error (.inconsistent attr (getAttr j "name") (getAttr j attr) qv) := by
  induction attrs generalizing j with
  | nil => cases h
  | cons a rest ih =>
    rcases List.mem_cons.mp h with rfl | hmem
    · have hnot : attr ∉ rest := (List.nodup_cons.mp hnd).1
      rw [universalFold_cons,
        universalStep_hit _ _ _ qv (by rw [lookupVal_singleton, if_pos rfl])]
      cases hb : truthy (getAttr j attr) with
      | false =>
        rw [if_pos (by simp [hb])]
        exact universalFold_singleton_notmem attr qv rest _ hnot
      | true =>
        rw [if_neg (by simp [hb])]
        by_cases h2 : getAttr j attr = qv
        · rw [if_pos h2]
          exact universalFold_singleton_notmem attr qv rest _ hnot
        · rw [if_neg h2]
    · have hne : a ≠ attr := fun hc => (List.nodup_cons.mp hnd).1 (hc ▸ hmem)
      rw [universalFold_skip _ _ _ _ ?_]
      · exact ih _ hmem (List.nodup_cons.mp hnd).2
      · rw [lookupVal_singleton]
        exact if_neg (fun hc => hne hc.symm)

/-- C1 (amended): folding a unit record supplying one universal attribute
into a cluster job: while the stored value is falsy (unset, `None`, empty
string, zero) the unit's value is stored, silently overwriting any falsy
value a previous unit supplied; once the stored value is truthy, a later
identical value leaves the job unchanged and a later differing value
raises the cluster-inconsistency error naming the attribute and the job. -/
theorem C1_amended (attr : String) (h : attr ∈ ATTRS_UNIVERSAL) (gwjob : AttrMap) (qv : PyVal) :
    (truthy (getAttr gwjob attr) = false →
      handleJobValuesUniversal [(attr, qv)] gwjob ATTRS_ALL = .ok (setAttr gwjob attr qv)) ∧
    (truthy (getAttr gwjob attr) = true → getAttr gwjob attr = qv →
      handleJobValuesUniversal [(attr, qv)] gwjob ATTRS_ALL = .ok gwjob) ∧
    (truthy (getAttr gwjob attr) = true → getAttr gwjob attr ≠ qv →
      handleJobValuesUniversal [(attr, qv)] gwjob ATTRS_ALL =
        .error (.inconsistent attr (getAttr gwjob "name") (getAttr gwjob attr) qv)) := by
  have hl : ATTRS_UNIVERSAL = ["name", "executable", "arguments", "compute_site"] := by decide
  rw [hl] at h
  have hmain := universalFold_singleton_mem attr qv
    ["name", "executable", "arguments", "compute_site"] gwjob h (by decide)
  rw [handleJobValuesUniversal_allAttrs, hmain]
  refine ⟨fun hf => ?_, fun ht he => ?_, fun ht hne => ?_⟩
  · rw [if_pos (by simp [hf])]
  · rw [if_neg (by simp [ht]), if_pos he]
  · rw [if_neg (by simp [ht]), if_neg hne]

/-- C1 (amended) witness: a truthy stored `compute_site` and a differing
later value raise the inconsistency error naming attribute and job. -/
theorem C1_amended_witness :
    handleJobValuesUniversal [("compute_site", PyVal.str "siteX")]
        [("name", PyVal.str "j1"), ("compute_site", PyVal.str "siteY")] ATTRS_ALL
      = .error (.inconsistent "compute_site" (PyVal.str "j1")
          (PyVal.str "siteY") (PyVal.str "siteX")) :=
  (C1_amended "compute_site" (by decide)
      [("name", PyVal.str "j1"), ("compute_site", PyVal.str "siteY")]
      (PyVal.str "siteX")).2.2 (by decide) (by decide)

/-- C2 (counterexample): max-class merging is not order-independent for
every pair of unit records.  A unit with the larger memory request and no
multiplier versus a unit with a smaller request and an active multiplier:
folded big-then-small the final multiplier is `2` (the small unit's
multiplier wins via the plain max-merge of `memory_multiplier`), folded
small-then-big it is `None` (the big unit's memory update force-copies
its absent multiplier).  Both records are fixed points of the
`_get_job_values` memory-scaling normalization, so they are genuine unit
value records. -/
theorem C2_counterexample :
    (foldTwoMax unitBigMemNoScaling unitSmallMemScaling (freshJob "clusterA")).map
        (fun j => getAttr j "memory_multiplier") = .ok (PyVal.num 2) ∧
    (foldTwoMax unitSmallMemScaling unitBigMemNoScaling (freshJob "clusterA")).map
        (fun j => getAttr j "memory_multiplier") = .ok PyVal.none ∧
    exceptSameJob (foldTwoMax unitBigMemNoScaling unitSmallMemScaling (freshJob "clusterA"))
      (foldTwoMax unitSmallMemScaling unitBigMemNoScaling (freshJob "clusterA")) = false ∧
    adjustMemoryScaling unitBigMemNoScaling = unitBigMemNoScaling ∧
    adjustMemoryScaling unitSmallMemScaling = unitSmallMemScaling := by
  refine ⟨?_, ?_, ?_, ?_, ?_⟩ <;> decide

/-- C2 (amended): the spec's concrete scenario does hold and is
order-independent: unit A (`request_memory=2048`, no multiplier) and unit
B (`request_memory=4096`, `memory_multiplier=2.0`, normalized by
`_get_job_values` so it carries the default retry count) fold in either
order to the identical job with `request_memory=4096`,
`memory_multiplier=2`, and the non-null default retry count. -/
theorem C2_amended :
    specUnitB = setAttr specUnitBRaw "number_of_retries" DEFAULT_MEM_RETRIES ∧
    exceptSameJob (foldTwoMax specUnitA specUnitB (freshJob "clusterA"))
      (foldTwoMax specUnitB specUnitA (freshJob "clusterA")) = true ∧
    (foldTwoMax specUnitA specUnitB (freshJob "clusterA")).map
        (fun j => getAttr j "request_memory") = .ok (PyVal.num 4096) ∧
    (foldTwoMax specUnitA specUnitB (freshJob "clusterA")).map
        (fun j => getAttr j "memory_multiplier") = .ok (PyVal.num 2) ∧
    (foldTwoMax specUnitA specUnitB (freshJob "clusterA")).map
        (fun j => getAttr j "number_of_retries") = .ok DEFAULT_MEM_RETRIES ∧
    DEFAULT_MEM_RETRIES ≠ PyVal.none := by
  refine ⟨?_, ?_, ?_, ?_, ?_, ?_⟩ <;> decide

/-- C10 (counterexample): the max-class handler does not silently skip
every attribute missing from the unit record: a record carrying only
`request_memory` triggers the unguarded side-effect lookup of
`memory_multiplier` and raises a `KeyError`. -/
theorem C10_counterexample :
    handleJobValuesMax [("request_memory", PyVal.num 100)] (freshJob "clusterA") ATTRS_ALL
      = .error (.keyError "memory_multiplier") := by decide

/-- C10 (amended): the sum-class handler raises on any missing sum
attribute; the universal handler silently skips missing attributes; the
max handler skips missing attributes as long as `request_memory` is not
updated, but an update of `request_memory` performs unguarded lookups of
`memory_multiplier` and — when that multiplier is non-null — of
`number_of_retries`, each of which raises when missing; with every sum
attribute supplied the sum handler succeeds. -/
theorem C10_amended :
    handleJobValuesSum [("request_walltime", PyVal.num 1)] (freshJob "clusterA") ATTRS_ALL
      = .error (.keyError "request_disk") ∧
    handleJobValuesUniversal [] (freshJob "clusterA") ATTRS_ALL = .ok (freshJob "clusterA") ∧
    handleJobValuesMax [("request_cpus", PyVal.num 4)] (freshJob "clusterA") ATTRS_ALL
      = .ok (setAttr (freshJob "clusterA") "request_cpus" (PyVal.num 4)) ∧
    handleJobValuesMax [("request_memory", PyVal.num 100), ("memory_multiplier", PyVal.num 2)]
        (freshJob "clusterA") ATTRS_ALL
      = .error (.keyError "number_of_retries") ∧
    handleJobValuesMax [("request_memory", PyVal.num 100), ("memory_multiplier", PyVal.none)]
        (freshJob "clusterA") ATTRS_ALL
      = .ok (setAttr (setAttr (freshJob "clusterA") "request_memory" (PyVal.num 100))
          "memory_multiplier" PyVal.none) ∧
    handleJobValuesSum [("request_disk", PyVal.num 1), ("request_walltime", PyVal.num 2)]
        (freshJob "clusterA") ATTRS_ALL
      = .ok (setAttr (setAttr (freshJob "clusterA") "request_disk" (PyVal.num 1))
          "request_walltime" (PyVal.num 2)) := by
  refine ⟨?_, ?_, ?_, ?_, ?_, ?_⟩ <;> decide

/-- C7: in the spec's example store, the current-value subsection probe
takes precedence: with `curr_baz=garply`, `search("qux")` finds the
subsection value 3; without the current value it finds the section-level
value 2. -/
theorem C7_subsection_precedence :
    search specStore "qux" [("curr_baz", CVal.str "garply")]
        Option.none Option.none false = .found (CVal.num 3) ∧
    search specStore "qux" [] Option.none Option.none false = .found (CVal.num 2) := by
  exact ⟨rfl, rfl⟩

/-- A section containing no binding of the key yields nothing for a probe
with empty current values. -/
theorem probeSections_absent (key : String) (sects : List (String × ConfigSection))
    (h : sects.all (fun s => !(keyInSection s.2 key)) = true) :
    probeSections [] key sects = Option.none := by
  induction sects with
  | nil => rfl
  | cons p rest ih =>
    obtain ⟨n, s⟩ := p
    rw [List.all_cons, Bool.and_eq_true] at h
    have hv : alistFind s.values key = Option.none := by
      have h1 := h.1
      simp only [keyInSection, Bool.not_eq_true', Bool.or_eq_false_iff] at h1
      exact Option.not_isSome_iff_eq_none.mp (by simp [h1.1])
    show (match probeSection [] n s key with
      | some v => some v
      | Option.none => probeSections [] key rest) = Option.none
    have hp : probeSection [] n s key = alistFind s.values key := rfl
    rw [hp, hv]
    exact ih h.2

/-- C8: searching for a key absent from every section of the store, with
no search object and no current values: a required search raises the
missing-required-setting `KeyError`, and a search with a supplied default
returns that default as found. -/
theorem C8_required_and_default (store : ConfigStore) (key : String)
    (h : keyAbsentEverywhere store key = true) :
    search store key [] Option.none Option.none true = .keyError key ∧
    (∀ d : CVal, search store key [] Option.none (some d) false = .found d) := by
  have hp : probeSections [] key store.sections = Option.none :=
    probeSections_absent key store.sections h
  constructor
  · show searchCore store key [] Option.none true = .keyError key
    show (match alistFind ([] : List (String × CVal)) key with
      | some v => SearchResult.found v
      | Option.none =>
        match probeSections [] key store.sections with
        | some v => SearchResult.found v
        | Option.none => if true then .keyError key else .notFound) = .keyError key
    rw [show alistFind ([] : List (String × CVal)) key = Option.none from rfl, hp]
    rfl
  · intro d
    show searchCore store key [] (some d) false = .found d
    show (match alistFind ([] : List (String × CVal)) key with
      | some v => SearchResult.found v
      | Option.none =>
        match probeSections [] key store.sections with
        | some v => SearchResult.found v
        | Option.none => SearchResult.found d) = .found d
    rw [show alistFind ([] : List (String × CVal)) key = Option.none from rfl, hp]

/-- C8 witness: the key `fred` is absent from the example store; required
search raises, default search returns the default. -/
theorem C8_witness :
    search specStore "fred" [] Option.none Option.none true = .keyError "fred" ∧
    search specStore "fred" [] Option.none (some (CVal.num 4)) false = .found (CVal.num 4) :=
  ⟨(C8_required_and_default specStore "fred" (by decide)).1,
   (C8_required_and_default specStore "fred" (by decide)).2 (CVal.num 4)⟩

/-- C5 (counterexample): the claim says that when expand-environment-now
and defer-environment are both requested, the deferred-marker form wins.
With both toggles set the search instead yields the fully expanded value
(the expand stage rewrites the marker back and expands it), exactly as
`testVariables` asserts, not the deferred-marker form the claim
predicts. -/
theorem C5_counterexample :
    graultSearch true true false = "garply/waldo/\x7bqux:03\x7d" ∧
    graultSearch true true false ≠ "<ENV:GARPLY>/waldo/\x7bqux:03\x7d" := by
  exact ⟨rfl, by decide⟩

/-- C5 (amended): the eight toggle combinations produce exactly the six
listed outputs, with immediate expansion — not the deferred marker —
winning when both environment toggles are requested. -/
theorem C5_amended :
    graultSearch false false false = "$\x7bGARPLY\x7d/waldo/\x7bqux:03\x7d" ∧
    graultSearch false false true = "$\x7bGARPLY\x7d/waldo/002" ∧
    graultSearch false true false = "<ENV:GARPLY>/waldo/\x7bqux:03\x7d" ∧
    graultSearch false true true = "<ENV:GARPLY>/waldo/002" ∧
    graultSearch true false false = "garply/waldo/\x7bqux:03\x7d" ∧
    graultSearch true false true = "garply/waldo/002" ∧
    graultSearch true true false = "garply/waldo/\x7bqux:03\x7d" ∧
    graultSearch true true true = "garply/waldo/002" :=
  ⟨rfl, rfl, rfl, rfl, rfl, rfl, rfl, rfl⟩

/-- C6 (counterexample): the claim says every remaining case substitutes
the file's base name only.  A WMS-transferred, non-job-shareable
`butlerConfig` file on a shared filesystem whose source URI lacks a
`.yaml` extension is substituted as the hard-coded `butler.yaml`, not as
its base name `butler`. -/
theorem C6_counterexample :
    fillArguments true [butlerCfgFile] [] [] "<FILE:butlerConfig>" = .ok "butler.yaml" ∧
    basenameStr butlerCfgFile.src_uri = "butler" ∧
    ("butler.yaml" : String) ≠ "butler" := by
  exact ⟨rfl, rfl, by decide⟩

/-- C6 (amended): the URI substituted for a file marker follows the
claimed policy — source URI when not WMS-transferred; source URI when on
a shared filesystem and job-shareable; base name otherwise — except that
on a shared filesystem a non-job-shareable file named `butlerConfig`
whose source lacks a `.yaml` extension is substituted as the hard-coded
`butler.yaml`. -/
theorem C6_amended (use_shared : Bool) (f : GenericWorkflowFile) :
    (f.wms_transfer = false → fileUri use_shared f = f.src_uri) ∧
    (f.wms_transfer = true → use_shared = true → f.job_shared = true →
      fileUri use_shared f = f.src_uri) ∧
    (f.wms_transfer = true → use_shared = true → f.job_shared = false →
      f.name = "butlerConfig" → splitextExtension f.src_uri ≠ ".yaml" →
      fileUri use_shared f = "butler.yaml") ∧
    (f.wms_transfer = true → use_shared = true → f.job_shared = false →
      (f.name ≠ "butlerConfig" ∨ splitextExtension f.src_uri = ".yaml") →
      fileUri use_shared f = basenameStr f.src_uri) ∧
    (f.wms_transfer = true → use_shared = false →
      fileUri use_shared f = basenameStr f.src_uri) := by
  refine ⟨fun h1 => ?_, fun h1 h2 h3 => ?_, fun h1 h2 h3 h4 h5 => ?_,
    fun h1 h2 h3 h4 => ?_, fun h1 h2 => ?_⟩
  · rw [fileUri, if_pos (by simp [h1])]
  · rw [fileUri, if_neg (by simp [h1]), if_pos (by simp [h2]), if_pos h3]
  · rw [fileUri, if_neg (by simp [h1]), if_pos (by simp [h2]),
      if_neg (by simp [h3]), if_pos ⟨h4, h5⟩]
  · rw [fileUri, if_neg (by simp [h1]), if_pos (by simp [h2]), if_neg (by simp [h3]),
      if_neg (by rcases h4 with h4 | h4 <;> simp [h4])]
  · rw [fileUri, if_neg (by simp [h1]), if_neg (by simp [h2])]

/-- C6 (amended) witness: the butlerConfig exception branch at a concrete
file. -/
theorem C6_amended_witness : fileUri true butlerCfgFile = "butler.yaml" :=
  (C6_amended true butlerCfgFile).2.2.1 rfl rfl rfl rfl (by decide)

/-- C3 (counterexample): a configuration with no explicit final job,
`.executionButler.whenCreate = "TRANSFORM"` and
`.executionButler.whenMerge = "NEVER"`: the dispatch selects the
merge-job policy (its key is present and not `"NEVER"`), yet that policy
attaches no job at all and raises no error — the workflow comes back
unchanged, contradicting both "attaches exactly one final job via that
policy" and "fails if neither policy is configured to run". -/
theorem C3_counterexample :
    presentNotNever cfgMergeNever.finalJobWhenRun = false ∧
    presentNotNever cfgMergeNever.ebWhenCreate = true ∧
    addFinalJobDispatch cfgMergeNever oneJobGraph = .ok oneJobGraph := by
  refine ⟨rfl, rfl, by decide⟩

/-- C3 (amended): the dispatch selects, in fixed priority order, the
first of the two policies whose configuration key is present with a value
differing from the exact string `"NEVER"`, and raises the
final-job-specification-not-found error only when neither qualifies; the
selected policy then re-validates its value case-insensitively and may
attach exactly one final job (ALWAYS or SUCCESS), attach nothing at all
without error (a value whose upper-casing is NEVER, or — for the merge
policy — a whenMerge of NEVER), or raise an invalid-value error. -/
theorem C3_amended (c : FinalJobConfig) (g : GWGraph) :
    (presentNotNever c.finalJobWhenRun = false → presentNotNever c.ebWhenCreate = false →
      addFinalJobDispatch c g = .error .notFound) ∧
    (presentNotNever c.finalJobWhenRun = true →
      addFinalJobDispatch c g = addFinalJobWhenRun (c.finalJobWhenRun.getD "") g) ∧
    (presentNotNever c.finalJobWhenRun = false → presentNotNever c.ebWhenCreate = true →
      addFinalJobDispatch c g = addMergeJob (c.ebWhenCreate.getD "") (c.ebWhenMerge.getD "") g) ∧
    (∀ w, c.finalJobWhenRun = some w → w ≠ "NEVER" → pyUpper w = "ALWAYS" →
      addFinalJobDispatch c g = .ok (addFinal g "finalJob")) ∧
    (∀ w, c.finalJobWhenRun = some w → w ≠ "NEVER" → pyUpper w = "SUCCESS" →
      addFinalJobDispatch c g = .ok (addFinalJobAsSink g "finalJob")) ∧
    (∀ w, c.finalJobWhenRun = some w → w ≠ "NEVER" → pyUpper w = "NEVER" →
      addFinalJobDispatch c g = .ok g) := by
  refine ⟨fun h1 h2 => ?_, fun h1 => ?_, fun h1 h2 => ?_,
    fun w hw hne hup => ?_, fun w hw hne hup => ?_, fun w hw hne hup => ?_⟩
  · rw [addFinalJobDispatch, if_neg (by simp [h1]), if_neg (by simp [h2])]
  · rw [addFinalJobDispatch, if_pos (by simp [h1])]
  · rw [addFinalJobDispatch, if_neg (by simp [h1]), if_pos (by simp [h2])]
  · have hp : presentNotNever c.finalJobWhenRun = true := by
      rw [hw]; simp [presentNotNever, hne]
    rw [addFinalJobDispatch, if_pos (by simp [hp]), hw]
    show addFinalJobWhenRun w g = _
    rw [addFinalJobWhenRun, if_pos (by rw [hup]; decide), if_pos hup]
  · have hp : presentNotNever c.finalJobWhenRun = true := by
      rw [hw]; simp [presentNotNever, hne]
    rw [addFinalJobDispatch, if_pos (by simp [hp]), hw]
    show addFinalJobWhenRun w g = _
    rw [addFinalJobWhenRun, if_pos (by rw [hup]; decide),
      if_neg (by rw [hup]; decide), if_pos hup]
  · have hp : presentNotNever c.finalJobWhenRun = true := by
      rw [hw]; simp [presentNotNever, hne]
    rw [addFinalJobDispatch, if_pos (by simp [hp]), hw]
    show addFinalJobWhenRun w g = _
    rw [addFinalJobWhenRun, if_neg (by rw [hup]; simp)]

/-- C3 (amended) witness: `whenRun = "ALWAYS"` attaches the final job
unconditionally through the first policy. -/
theorem C3_amended_witness :
    addFinalJobDispatch ⟨some "ALWAYS", Option.none, Option.none⟩ oneJobGraph
      = .ok (addFinal oneJobGraph "finalJob") :=
  (C3_amended ⟨some "ALWAYS", Option.none, Option.none⟩ oneJobGraph).2.2.2.1
    "ALWAYS" rfl (by decide) (by decide)

/-- C4: attaching the final job to a well-formed graph that does not
already contain a job of that name: with `whenRun = SUCCESS` the final
job is added with an in-edge from every job that currently has no
outgoing edges, gains no other in-edges, and itself has zero out-edges;
with `whenRun = ALWAYS` it is attached as the designated final job with
no dependency edges at all. -/
theorem C4_final_attachment (g : GWGraph) (hwf : edgesWellFormed g = true)
    (hfresh : "finalJob" ∉ g.nodes) :
    addFinalJobWhenRun "SUCCESS" g = .ok (addFinalJobAsSink g "finalJob") ∧
    (∀ n, n ∈ g.nodes → outDegree g n = 0 →
      (n, "finalJob") ∈ (addFinalJobAsSink g "finalJob").edges) ∧
    outDegree (addFinalJobAsSink g "finalJob") "finalJob" = 0 ∧
    (∀ e, e ∈ (addFinalJobAsSink g "finalJob").edges →
      e ∈ g.edges ∨ (e.2 = "finalJob" ∧ e.1 ∈ g.nodes ∧ outDegree g e.1 = 0)) ∧
    (addFinalJobAsSink g "finalJob").finalJob = g.finalJob ∧
    addFinalJobWhenRun "ALWAYS" g = .ok (addFinal g "finalJob") ∧
    (addFinal g "finalJob").edges = g.edges ∧
    (addFinal g "finalJob").finalJob = some "finalJob" := by
  have hwf' : ∀ e ∈ g.edges, e.1 ∈ g.nodes ∧ e.2 ∈ g.nodes := by
    intro e he
    have := (List.all_eq_true.mp hwf) e he
    simpa using this
  refine ⟨rfl, ?_, ?_, ?_, rfl, rfl, rfl, rfl⟩
  · intro n hn hdeg
    show (n, "finalJob") ∈ g.edges ++
      (g.nodes.filter (fun m => outDegree g m = 0)).map (fun s => (s, "finalJob"))
    refine List.mem_append.mpr (Or.inr ?_)
    exact List.mem_map.mpr ⟨n, List.mem_filter.mpr ⟨hn, by simp [hdeg]⟩, rfl⟩
  · show (((g.edges ++ _).filter (fun e => e.1 = "finalJob")).length) = 0
    rw [List.filter_append, List.length_eq_zero]
    have h1 : g.edges.filter (fun e => decide (e.1 = "finalJob")) = [] := by
      rw [List.filter_eq_nil_iff]
      intro e he
      simp only [decide_eq_true_eq]
      intro hc
      exact hfresh (hc ▸ (hwf' e he).1)
    have h2 : ((g.nodes.filter (fun m => outDegree g m = 0)).map
        (fun s => (s, "finalJob"))).filter (fun e => decide (e.1 = "finalJob")) = [] := by
      rw [List.filter_eq_nil_iff]
      intro e he
      simp only [decide_eq_true_eq]
      rcases List.mem_map.mp he with ⟨s, hs, rfl⟩
      intro hc
      exact hfresh (hc ▸ List.mem_of_mem_filter hs)
    rw [h1, h2]
    rfl
  · intro e he
    rcases List.mem_append.mp he with h | h
    · exact Or.inl h
    · rcases List.mem_map.mp h with ⟨s, hs, rfl⟩
      rcases List.mem_filter.mp hs with ⟨hsn, hsd⟩
      exact Or.inr ⟨rfl, hsn, by simpa using hsd⟩

/-- A key is found in an association list exactly when it occurs among
the keys. -/
theorem alistFind_isSome_iff_mem {α : Type} (m : List (String × α)) (k : String) :
    (alistFind m k).isSome = true ↔ k ∈ m.map Prod.fst := by
  induction m with
  | nil => simp [alistFind]
  | cons p rest ih =>
    obtain ⟨k', v⟩ := p
    by_cases h : k' = k
    · subst h
      simp [alistFind]
    · have h' : ¬ (k = k') := fun hc => h hc.symm
      simp [alistFind, h, h', ih]

/-- Finding a key after appending a single fresh binding. -/
theorem alistFind_append_single {α : Type} (xs : List (String × α)) (l lbl : String) (v : α) :
    alistFind (xs ++ [(l, v)]) lbl
      = match alistFind xs lbl with
        | some w => some w
        | Option.none => if l = lbl then some v else Option.none := by
  induction xs with
  | nil => simp [alistFind]
  | cons p rest ih =>
    obtain ⟨k', w⟩ := p
    by_cases h : k' = lbl
    · simp [alistFind, h]
    · simp [alistFind, h, ih]

/-- The init-node dictionary after processing a quantum whose label was
already seen. -/
theorem stepInitQuantum_seen (st : WGState) (nid : Nat) (l : String) (i : InitInfo)
    (hfind : alistFind st.initNodes l = some i) :
    (stepInitQuantum st nid l).initNodes = st.initNodes := by
  simp [stepInitQuantum, hfind]

/-- The init-node dictionary after processing a quantum with a fresh
label: one entry is appended, created from that very quantum. -/
theorem stepInitQuantum_new (st : WGState) (nid : Nat) (l : String)
    (hfind : alistFind st.initNodes l = Option.none) :
    (stepInitQuantum st nid l).initNodes
      = st.initNodes ++
        [(l, ⟨WNode.initTask l, WNode.initFile (st.ncnt + 1 + 2), nid⟩)] := by
  simp [stepInitQuantum, hfind]

/-- Labels of the init nodes accumulate in first-appearance order. -/
theorem buildWGAux_labels (qs : List (Nat × String)) (st : WGState) :
    (buildWGAux qs st).initNodes.map Prod.fst
      = st.initNodes.map Prod.fst ++ newLabels (st.initNodes.map Prod.fst) qs := by
  induction qs generalizing st with
  | nil => simp [buildWGAux, newLabels]
  | cons q rest ih =>
    obtain ⟨nid, l⟩ := q
    rw [buildWGAux, ih]
    rcases hfind : alistFind st.initNodes l with _ | i
    · have hmem : l ∉ st.initNodes.map Prod.fst := by
        rw [← alistFind_isSome_iff_mem, hfind]
        simp
      rw [stepInitQuantum_new st nid l hfind]
      simp only [newLabels, List.map_append, List.map_cons, List.map_nil]
      rw [if_neg hmem]
      simp [List.append_assoc]
    · have hmem : l ∈ st.initNodes.map Prod.fst :=
        (alistFind_isSome_iff_mem _ _).mp (by rw [hfind]; rfl)
      rw [stepInitQuantum_seen st nid l i hfind]
      simp only [newLabels]
      rw [if_pos hmem]

/-- The representative quantum recorded for a label is the first quantum
bearing that label (unless the label was already present in the incoming
state). -/
theorem buildWGAux_reprId (qs : List (Nat × String)) (st : WGState) (lbl : String) :
    (alistFind (buildWGAux qs st).initNodes lbl).map InitInfo.reprId
      = match alistFind st.initNodes lbl with
        | some i => some i.reprId
        | Option.none => firstOcc qs lbl := by
  induction qs generalizing st with
  | nil =>
    rcases h : alistFind st.initNodes lbl with _ | i <;> simp [buildWGAux, h, firstOcc]
  | cons q rest ih =>
    obtain ⟨nid, l⟩ := q
    rw [buildWGAux, ih]
    rcases hfind : alistFind st.initNodes l with _ | i
    · rw [stepInitQuantum_new st nid l hfind, alistFind_append_single]
      rcases hl : alistFind st.initNodes lbl with _ | w
      · by_cases he : l = lbl
        · subst he
          simp [firstOcc]
        · simp [he, firstOcc]
      · rfl
    · rw [stepInitQuantum_seen st nid l i hfind]
      rcases hl : alistFind st.initNodes lbl with _ | w
      · have he : ¬ (l = lbl) := by
          intro hc
          subst hc
          rw [hfind] at hl
          cases hl
        simp [firstOcc, he]
      · rfl

/-- Every stored init task node is the `init_<label>` node of its own
label. -/
theorem buildWGAux_tnode (qs : List (Nat × String)) (st : WGState)
    (h : ∀ l i, alistFind st.initNodes l = some i → i.tnode = WNode.initTask l) :
    ∀ l i, alistFind (buildWGAux qs st).initNodes l = some i →
      i.tnode = WNode.initTask l := by
  induction qs generalizing st with
  | nil => simpa [buildWGAux] using h
  | cons q rest ih =>
    obtain ⟨nid, l0⟩ := q
    rw [buildWGAux]
    apply ih
    intro l i hfind
    rcases hf0 : alistFind st.initNodes l0 with _ | j
    · rw [stepInitQuantum_new st nid l0 hf0, alistFind_append_single] at hfind
      rcases hl : alistFind st.initNodes l with _ | w
      · rw [hl] at hfind
        by_cases he : l0 = l
        · rw [if_pos he] at hfind
          cases hfind
          rw [← he]
        · rw [if_neg he] at hfind
          cases hfind
      · rw [hl] at hfind
        cases hfind
        exact h l _ hl
    · rw [stepInitQuantum_seen st nid l0 j hf0] at hfind
      exact h l i hfind

/-- `_link_init_nodes` succeeds on a pipeline whose labels are all
present and produces exactly the prev-file-to-next-task chain. -/
theorem linkInitAux_total (ins : List (String × InitInfo))
    (htn : ∀ l i, alistFind ins l = some i → i.tnode = WNode.initTask l)
    (rest : List String) :
    ∀ prev : String, (alistFind ins prev).isSome = true →
      (∀ l ∈ rest, (alistFind ins l).isSome = true) →
      linkInitAux ins prev rest
        = some (((prev :: rest).zip rest).map
            (fun pc => (initFnodeOf ins pc.1, WNode.initTask pc.2))) := by
  induction rest with
  | nil =>
    intro prev _ _
    rfl
  | cons c rest' ih =>
    intro prev hp hr
    rcases hpv : alistFind ins prev with _ | ip
    · rw [hpv] at hp
      cases hp
    rcases hcv : alistFind ins c with _ | ic
    · have hc := hr c (List.mem_cons_self c rest')
      rw [hcv] at hc
      cases hc
    have hrec := ih c (by rw [hcv]; rfl) (fun l hl => hr l (List.mem_cons_of_mem c hl))
    show (match alistFind ins prev, alistFind ins c with
      | some ip, some ic =>
        (match linkInitAux ins c rest' with
         | some es => some ((ip.fnode, ic.tnode) :: es)
         | Option.none => Option.none)
      | _, _ => Option.none) = _
    rw [hpv, hcv, hrec]
    have h1 : ip.fnode = initFnodeOf ins prev := by rw [initFnodeOf, hpv]
    have h2 : ic.tnode = WNode.initTask c := htn c ic hcv
    show some ((ip.fnode, ic.tnode) ::
        ((c :: rest').zip rest').map (fun pc => (initFnodeOf ins pc.1, WNode.initTask pc.2)))
      = some (((prev :: c :: rest').zip (c :: rest')).map
          (fun pc => (initFnodeOf ins pc.1, WNode.initTask pc.2)))
    rw [h1, h2]
    rfl

/-- C9: the initialization portion of workflow assembly (bps_core
`_create_workflow_graph` with `runInit`, plus `_link_init_nodes`): for
every quantum list, (a) exactly one initialization job is created per
distinct task label, in task-pipeline (first appearance) order; (b) each
initialization job is built from a single representative execution unit,
the first quantum bearing its label; (c) each stored init task node is
the `init_<label>` node; and (d) linking produces exactly the chain in
which pipeline job i's output file node precedes pipeline job i+1's
initialization task node. -/
theorem C9_init_workflow (quanta : List (Nat × String)) (ncnt0 : Nat) :
    (buildWorkflowInit quanta ncnt0).initNodes.map Prod.fst = pipelineLabels quanta ∧
    (∀ lbl, (alistFind (buildWorkflowInit quanta ncnt0).initNodes lbl).map InitInfo.reprId
        = firstOcc quanta lbl) ∧
    (∀ lbl i, alistFind (buildWorkflowInit quanta ncnt0).initNodes lbl = some i →
        i.tnode = WNode.initTask lbl) ∧
    linkInitNodes (buildWorkflowInit quanta ncnt0).initNodes (pipelineLabels quanta)
      = some (chainEdges (buildWorkflowInit quanta ncnt0).initNodes
          (pipelineLabels quanta)) := by
  have h1 : (buildWorkflowInit quanta ncnt0).initNodes.map Prod.fst = pipelineLabels quanta := by
    have := buildWGAux_labels quanta ⟨[], [], ncnt0, Option.none⟩
    simpa [buildWorkflowInit, pipelineLabels] using this
  have h2 : ∀ lbl, (alistFind (buildWorkflowInit quanta ncnt0).initNodes lbl).map
      InitInfo.reprId = firstOcc quanta lbl := by
    intro lbl
    have := buildWGAux_reprId quanta ⟨[], [], ncnt0, Option.none⟩ lbl
    simpa [buildWorkflowInit, alistFind] using this
  have h3 : ∀ lbl i, alistFind (buildWorkflowInit quanta ncnt0).initNodes lbl = some i →
      i.tnode = WNode.initTask lbl := by
    apply buildWGAux_tnode
    intro l i h
    cases h
  refine ⟨h1, h2, h3, ?_⟩
  have hmem : ∀ l ∈ pipelineLabels quanta,
      (alistFind (buildWorkflowInit quanta ncnt0).initNodes l).isSome = true := by
    intro l hl
    rw [alistFind_isSome_iff_mem, h1]
    exact hl
  rcases hpl : pipelineLabels quanta with _ | ⟨p, rest⟩
  · rfl
  · show linkInitAux (buildWorkflowInit quanta ncnt0).initNodes p rest = _
    rw [linkInitAux_total (buildWorkflowInit quanta ncnt0).initNodes h3 rest p
      (hmem p (by rw [hpl]; exact List.mem_cons_self p rest))
      (fun l hl => hmem l (by rw [hpl]; exact List.mem_cons_of_mem p hl))]
    rfl

/-- C9 witness: three quanta over two labels, `t1` appearing twice.  One
init job per distinct label in pipeline order, `t1` represented by its
first quantum, and the chain edge from `t1`'s output file node to `t2`'s
init task. -/
theorem C9_init_workflow_witness :
    (buildWorkflowInit [(1, "t1"), (2, "t1"), (3, "t2")] 3).initNodes.map Prod.fst
      = ["t1", "t2"] ∧
    (alistFind (buildWorkflowInit [(1, "t1"), (2, "t1"), (3, "t2")] 3).initNodes "t1").map
      InitInfo.reprId = some 1 ∧
    InitInfo.tnode ⟨WNode.initTask "t1", WNode.initFile 6, 1⟩ = WNode.initTask "t1" ∧
    linkInitNodes (buildWorkflowInit [(1, "t1"), (2, "t1"), (3, "t2")] 3).initNodes
        ["t1", "t2"]
      = some (chainEdges (buildWorkflowInit [(1, "t1"), (2, "t1"), (3, "t2")] 3).initNodes
          ["t1", "t2"]) :=
  ⟨(C9_init_workflow [(1, "t1"), (2, "t1"), (3, "t2")] 3).1,
   (C9_init_workflow [(1, "t1"), (2, "t1"), (3, "t2")] 3).2.1 "t1",
   (C9_init_workflow [(1, "t1"), (2, "t1"), (3, "t2")] 3).2.2.1 "t1"
     ⟨WNode.initTask "t1", WNode.initFile 6, 1⟩ (by decide),
   by
     have h := (C9_init_workflow [(1, "t1"), (2, "t1"), (3, "t2")] 3).2.2.2
     have hp : pipelineLabels [(1, "t1"), (2, "t1"), (3, "t2")] = ["t1", "t2"] := by decide
     rwa [hp] at h⟩

/-- C4 witness: a concrete two-job chain graph. -/
theorem C4_final_attachment_witness :
    addFinalJobWhenRun "SUCCESS" ⟨["a", "b"], [("a", "b")], Option.none⟩
      = .ok (addFinalJobAsSink ⟨["a", "b"], [("a", "b")], Option.none⟩ "finalJob") ∧
    ("b", "finalJob") ∈
      (addFinalJobAsSink ⟨["a", "b"], [("a", "b")], Option.none⟩ "finalJob").edges ∧
    outDegree (addFinalJobAsSink ⟨["a", "b"], [("a", "b")], Option.none⟩ "finalJob")
      "finalJob" = 0 :=
  ⟨(C4_final_attachment ⟨["a", "b"], [("a", "b")], Option.none⟩ (by decide) (by decide)).1,
   (C4_final_attachment ⟨["a", "b"], [("a", "b")], Option.none⟩ (by decide) (by decide)).2.1
     "b" (by decide) (by decide),
   (C4_final_attachment ⟨["a", "b"], [("a", "b")], Option.none⟩ (by decide) (by decide)).2.2.1⟩

end Bps
